import Mathlib

/-!
# Security-policy data source and IP-block-subnet resource of the NSX-T provider

Shallow embedding of

* `listSecurityPolicies` and `dataSourceNsxtPolicySecurityPolicyRead`
  (`nsxt/data_source_nsxt_policy_security_policy.go`),
* `resourceNsxtIpBlockSubnetRead` and `resourceNsxtIpBlockSubnetDelete`
  (`nsxt/resource_nsxt_ip_block_subnet.go`).

Conventions.

* A Go pointer field (`*string`, `*bool`, `*int64`) is an `Option`; dereferencing
  `none` is the run-time panic `Outcome.nilDeref`.
* A Go `error` result is an `Option`: `none` is `nil`.
* The remote endpoints are fields of the connector.  The listing endpoint also
  receives the number of listing calls made before it in the run, so that a
  service whose answers change from one call to the next is covered.
* Every function that talks to the service also reports the calls it made, in
  order (a ghost trace).
* The unbounded `for` loop of `listSecurityPolicies` takes fuel: `none` means the
  fuel ran out before the loop returned.
* `int(*policies.ResultCount)` is the identity on a 64-bit platform; the count
  is an `Int`.
-/

namespace Nsxt

/-! ## Data model -/

/-- Error value returned by the API client; `Error` is the text `%v` prints. -/
structure ClientError where
  Error : String
deriving DecidableEq, Repr

/-- The fields of `model.SecurityPolicy` the data source reads. -/
structure SecurityPolicy where
  Id : Option String
  DisplayName : Option String
  Description : Option String
  Path : Option String
  Category : Option String
  IsDefault : Option Bool
deriving DecidableEq, Repr

/-- The fields of `model.SecurityPolicyListResult` the enumerator reads. -/
structure SecurityPolicyListResult where
  Results : List SecurityPolicy
  ResultCount : Option Int
  Cursor : Option String
deriving DecidableEq, Repr

/-- A call to the remote service. -/
inductive ApiCall where
  | List (domain : String) (cursor : Option String)
  | Get (domain : String) (id : String)
deriving DecidableEq, Repr

/-- How a Go function ends: `return nil` (with the state it leaves), `return
fmt.Errorf(msg)`, or a nil-pointer dereference. -/
inductive Outcome (α : Type) where
  | ok (a : α)
  | error (msg : String)
  | nilDeref
deriving DecidableEq, Repr

/-- An outcome together with the calls made to the service. -/
structure Run (α : Type) where
  calls : List ApiCall
  outcome : Outcome α
deriving DecidableEq, Repr

/-- The `schema.ResourceData` of the security-policy data source: the stored
identifier (`d.Id()`) and the schema attributes, among them the attribute `id`
declared by `getDataSourceIDSchema`.  An attribute holds what `d.Get` returns for
it, the zero value when it is not set; `d.Set` of a nil pointer unsets the
attribute; `d.SetId` writes the stored identifier and the attribute `id`. -/
structure ResourceData where
  Id : String
  id : String
  display_name : String
  description : String
  path : String
  domain : String
  is_default : Bool
  category : String
deriving DecidableEq, Repr

/-- What the provider meta `m` and the connector give access to.  `List n domain
cursor` is `client.List(domain, cursor, nil, nil, nil, nil, &boolFalse, nil)` when
`n` listing calls were made before; `Get` is `client.Get`; `isNotFoundError` and
`isPolicyGlobalManager` are the provider helpers of these names;
`globalManagerRead` is the global-manager branch of the read, which goes through
`policyDataSourceResourceReadWithValidation`. -/
structure Connector where
  isPolicyGlobalManager : Bool
  isNotFoundError : Option ClientError → Bool
  Get : String → String → SecurityPolicy × Option ClientError
  globalManagerRead : ResourceData → Option (Run ResourceData)
  List : Nat → String → Option String → SecurityPolicyListResult × Option ClientError

/-! ## `listSecurityPolicies` -/

/-- What `listSecurityPolicies` returns (`results`, `err`) and the listing calls it
made. -/
structure ListRun where
  results : List SecurityPolicy
  err : Option ClientError
  calls : List ApiCall
deriving DecidableEq, Repr

/-- The `for` loop of `listSecurityPolicies`, from the state `results`, `cursor`,
`total`; `calls` are the listing calls made so far. -/
def listLoop (m : Connector) (domain : String) :
    Nat → List SecurityPolicy → Option String → Int → List ApiCall → Option ListRun
  | 0, _, _, _, _ => none
  | fuel + 1, results, cursor, total, calls =>
    match m.List calls.length domain cursor with
    | (_, some err) => some ⟨results, some err, calls ++ [ApiCall.List domain cursor]⟩
    | (policies, none) =>
      let results := results ++ policies.Results
      let total :=
        match policies.ResultCount with
        | some n => if total = 0 then n else total
        | none => total
      if total ≤ (results.length : Int) then
        some ⟨results, none, calls ++ [ApiCall.List domain cursor]⟩
      else
        listLoop m domain fuel results policies.Cursor total
          (calls ++ [ApiCall.List domain cursor])

/-- Model of `listSecurityPolicies`: empty accumulator, nil cursor, `total = 0`. -/
def listSecurityPolicies (m : Connector) (domain : String) (fuel : Nat) : Option ListRun :=
  listLoop m domain fuel [] none 0 []

/-! ## `dataSourceNsxtPolicySecurityPolicyRead` -/

/-- Go `strings.HasPrefix(s, p)`, on the characters of the two strings. -/
def HasPrefix (s p : String) : Bool :=
  p.data.isPrefixOf s.data

/-- The body of the matching loop after the category and default-flag checks:
the `objName` classification into the two buckets. -/
def classify (objName : String) (objInList : SecurityPolicy)
    (perfectMatch prefixMatch : List SecurityPolicy) :
    Outcome (List SecurityPolicy × List SecurityPolicy) :=
  if objName ≠ "" then
    match objInList.DisplayName with
    | none => .nilDeref
    | some name =>
      let prefixMatch := if HasPrefix name objName then prefixMatch ++ [objInList] else prefixMatch
      let perfectMatch := if name = objName then perfectMatch ++ [objInList] else perfectMatch
      .ok (perfectMatch, prefixMatch)
  else
    .ok (perfectMatch, prefixMatch ++ [objInList])

/-- The default-flag check of the matching loop and what follows it. -/
def checkDefault (isDefault : Bool) (objName : String) (objInList : SecurityPolicy)
    (perfectMatch prefixMatch : List SecurityPolicy) :
    Outcome (List SecurityPolicy × List SecurityPolicy) :=
  match objInList.IsDefault with
  | none => .nilDeref
  | some b =>
    if b ≠ isDefault then .ok (perfectMatch, prefixMatch)
    else classify objName objInList perfectMatch prefixMatch

/-- One iteration of `for _, objInList := range objList`: the new buckets, or the
panic of a nil dereference.  A `continue` leaves the buckets as they are. -/
def matchStep (category : String) (isDefault : Bool) (objName : String)
    (objInList : SecurityPolicy) (perfectMatch prefixMatch : List SecurityPolicy) :
    Outcome (List SecurityPolicy × List SecurityPolicy) :=
  if category ≠ "" then
    match objInList.Category with
    | none => .nilDeref
    | some c =>
      if category ≠ c then .ok (perfectMatch, prefixMatch)
      else checkDefault isDefault objName objInList perfectMatch prefixMatch
  else checkDefault isDefault objName objInList perfectMatch prefixMatch

/-- The matching loop over `objList`. -/
def matchLoop (category : String) (isDefault : Bool) (objName : String) :
    List SecurityPolicy → List SecurityPolicy → List SecurityPolicy →
      Outcome (List SecurityPolicy × List SecurityPolicy)
  | [], perfectMatch, prefixMatch => .ok (perfectMatch, prefixMatch)
  | objInList :: rest, perfectMatch, prefixMatch =>
    match matchStep category isDefault objName objInList perfectMatch prefixMatch with
    | .ok (perfectMatch, prefixMatch) =>
      matchLoop category isDefault objName rest perfectMatch prefixMatch
    | .error msg => .error msg
    | .nilDeref => .nilDeref

/-- The resolution after the matching loop: the single perfect match, else the
single match by name start, else an error. -/
def pickMatch (category objName : String)
    (perfectMatch prefixMatch : List SecurityPolicy) : Outcome SecurityPolicy :=
  match perfectMatch with
  | obj :: more =>
    if 1 < (obj :: more).length then
      .error ("Found multiple Security Policies with name '" ++ objName ++ "'")
    else .ok obj
  | [] =>
    match prefixMatch with
    | obj :: more =>
      if 1 < (obj :: more).length then
        .error ("Found multiple Security Policies with name starting with '" ++ objName ++
          "' and category '" ++ category ++ "'")
      else .ok obj
    | [] =>
      .error ("Security Policy with name '" ++ objName ++ "' and category '" ++ category ++
        "' was not found")

/-- The end of the read: `d.SetId(*obj.Id)`, which writes the stored identifier
and the attribute `id`, and the five `d.Set`. -/
def setPolicy (d : ResourceData) (obj : SecurityPolicy) : Outcome ResourceData :=
  match obj.Id with
  | none => .nilDeref
  | some id =>
    .ok { d with
      Id := id
      id := id
      display_name := obj.DisplayName.getD ""
      description := obj.Description.getD ""
      path := obj.Path.getD ""
      category := obj.Category.getD ""
      is_default := obj.IsDefault.getD false }

/-- Selection of the policy among `objList` (the matching loop and the
resolution), then the write to `d`. -/
def resolveByName (d : ResourceData) (category : String) (isDefault : Bool) (objName : String)
    (objList : List SecurityPolicy) : Outcome ResourceData :=
  match matchLoop category isDefault objName objList [] [] with
  | .ok (perfectMatch, prefixMatch) =>
    match pickMatch category objName perfectMatch prefixMatch with
    | .ok obj => setPolicy d obj
    | .error msg => .error msg
    | .nilDeref => .nilDeref
  | .error msg => .error msg
  | .nilDeref => .nilDeref

/-- Model of `dataSourceNsxtPolicySecurityPolicyRead`.  `fuel` bounds the loop of
`listSecurityPolicies`; the other branches do not use it. -/
def dataSourceNsxtPolicySecurityPolicyRead (m : Connector) (d : ResourceData) (fuel : Nat) :
    Option (Run ResourceData) :=
  let category := d.category
  let domain := d.domain
  let isDefault := d.is_default
  if m.isPolicyGlobalManager then m.globalManagerRead d
  else
    let objID := d.id
    let objName := d.display_name
    if objID ≠ "" then
      match m.Get domain objID with
      | (objGet, err) =>
        if m.isNotFoundError err then
          some ⟨[ApiCall.Get domain objID],
            .error ("Security Policy with ID " ++ objID ++ " was not found")⟩
        else
          match err with
          | some e =>
            some ⟨[ApiCall.Get domain objID],
              .error ("Error while reading Security Policy " ++ objID ++ ": " ++ e.Error)⟩
          | none => some ⟨[ApiCall.Get domain objID], setPolicy d objGet⟩
    else if objName = "" ∧ category = "" then
      some ⟨[], .error "Security Policy id, display name or category must be specified"⟩
    else
      match listSecurityPolicies m domain fuel with
      | none => none
      | some run =>
        match run.err with
        | some e =>
          some ⟨run.calls, .error ("Error while reading Security Policies: " ++ e.Error)⟩
        | none =>
          some ⟨run.calls, resolveByName d category isDefault objName run.results⟩

/-! ## `resourceNsxtIpBlockSubnetRead`, `resourceNsxtIpBlockSubnetDelete` -/

/-- Go `http.StatusNotFound`. -/
def StatusNotFound : Int := 404

/-- The field of `*http.Response` the resource reads. -/
structure HttpResponse where
  StatusCode : Int
deriving DecidableEq, Repr

/-- Go `common.Tag`. -/
structure CommonTag where
  Scope : String
  Tag : String
deriving DecidableEq, Repr

/-- Go `manager.IpPoolRange`. -/
structure IpPoolRange where
  Start : String
  End : String
deriving DecidableEq, Repr

/-- The fields of `manager.IpBlockSubnet` the resource reads. -/
structure IpBlockSubnet where
  Id : String
  DisplayName : String
  Description : String
  BlockId : String
  Size : Int
  Tags : List CommonTag
  AllocationRanges : List IpPoolRange
  Cidr : String
  Revision : Int
deriving DecidableEq, Repr

/-- The `schema.ResourceData` of the IP-block-subnet resource: the stored
identifier and the schema attributes.  An element of `allocation_ranges` is the
pair of its `start` and `end` entries. -/
structure SubnetData where
  Id : String
  revision : Int
  description : String
  display_name : String
  tag : List CommonTag
  block_id : String
  size : Int
  cidr : String
  allocation_ranges : List (String × String)
deriving DecidableEq, Repr

/-- What `m.(*api.APIClient)` gives access to: the two endpoints of
`PoolManagementApi` (a nil `*http.Response` is `none`), and the error, if any, of
the framework call `d.Set("allocation_ranges", v)`. -/
structure APIClient where
  ReadIpBlockSubnet : String → IpBlockSubnet × Option HttpResponse × Option ClientError
  DeleteIpBlockSubnet : String → Option HttpResponse × Option ClientError
  setAllocationRangesError : List (String × String) → Option ClientError

/-- Model of `setAllocationRangesInSchema`: one `start`/`end` element per range,
written with `d.Set`, whose error is returned. -/
def setAllocationRangesInSchema (nsxClient : APIClient) (d : SubnetData)
    (ranges : List IpPoolRange) : SubnetData × Option ClientError :=
  let allocationRanges := ranges.map (fun rng => (rng.Start, rng.End))
  match nsxClient.setAllocationRangesError allocationRanges with
  | some err => (d, some err)
  | none => ({ d with allocation_ranges := allocationRanges }, none)

/-- Model of `resourceNsxtIpBlockSubnetRead`.  The outcome `ok` carries the state
the function leaves; the state left behind by a returned error is not kept. -/
def resourceNsxtIpBlockSubnetRead (nsxClient : APIClient) (d : SubnetData) :
    Outcome SubnetData :=
  let id := d.Id
  if id = "" then .error "Error obtaining logical object id"
  else
    match nsxClient.ReadIpBlockSubnet id with
    | (ipBlockSubnet, resp, err) =>
      match resp with
      | none => .nilDeref
      | some resp =>
        if resp.StatusCode = StatusNotFound then .ok { d with Id := "" }
        else
          match err with
          | some e => .error ("Error during IpBlockSubnet read: " ++ e.Error)
          | none =>
            let d := { d with
              display_name := ipBlockSubnet.DisplayName
              description := ipBlockSubnet.Description
              block_id := ipBlockSubnet.BlockId
              size := ipBlockSubnet.Size
              tag := ipBlockSubnet.Tags }
            match setAllocationRangesInSchema nsxClient d ipBlockSubnet.AllocationRanges with
            | (_, some e) =>
              .error ("Error during IpBlockSubnet allocation ranges set in schema: " ++ e.Error)
            | (d, none) =>
              .ok { d with cidr := ipBlockSubnet.Cidr, revision := ipBlockSubnet.Revision }

/-- Model of `resourceNsxtIpBlockSubnetDelete`. -/
def resourceNsxtIpBlockSubnetDelete (nsxClient : APIClient) (d : SubnetData) :
    Outcome SubnetData :=
  let id := d.Id
  if id = "" then .error "Error obtaining logical object id"
  else
    match nsxClient.DeleteIpBlockSubnet id with
    | (resp, err) =>
      match err with
      | some e => .error ("Error during IpBlockSubnet delete: " ++ e.Error)
      | none =>
        match resp with
        | none => .nilDeref
        | some resp =>
          if resp.StatusCode = StatusNotFound then .ok { d with Id := "" }
          else .ok d

/-! ## Vocabulary of the statements -/

/-- The candidate passes the category filter (when a category is asked for) and
the default-flag filter. -/
def passesFilters (category : String) (isDefault : Bool) (o : SecurityPolicy) : Bool :=
  (decide (category = "") || decide (o.Category = some category)) &&
    decide (o.IsDefault = some isDefault)

/-- The candidate's display name is the queried name. -/
def nameEquals (objName : String) (o : SecurityPolicy) : Bool :=
  decide (o.DisplayName = some objName)

/-- The candidate counts as a match by name start: its display name starts with
the queried name, or no name is queried. -/
def nameStartsWith (objName : String) (o : SecurityPolicy) : Bool :=
  decide (objName = "") ||
    (match o.DisplayName with
     | some name => HasPrefix name objName
     | none => false)

/-- The matching loop reads no nil field of the candidate: the candidate carries
`category` when a category is queried, `is_default` when it passes the category
check, and `display_name` when it passes both checks and a name is queried. -/
def Readable (category : String) (isDefault : Bool) (objName : String)
    (o : SecurityPolicy) : Prop :=
  (category ≠ "" → o.Category ≠ none) ∧
  ((category = "" ∨ o.Category = some category) → o.IsDefault ≠ none) ∧
  (passesFilters category isDefault o = true → objName ≠ "" → o.DisplayName ≠ none)

/-- The filtered candidates whose display name is the queried name. -/
def exactMatches (category : String) (isDefault : Bool) (objName : String)
    (objList : List SecurityPolicy) : List SecurityPolicy :=
  objList.filter (fun o => passesFilters category isDefault o && nameEquals objName o)

/-- The filtered candidates that count as matches by name start. -/
def startMatches (category : String) (isDefault : Bool) (objName : String)
    (objList : List SecurityPolicy) : List SecurityPolicy :=
  objList.filter (fun o => passesFilters category isDefault o && nameStartsWith objName o)

/-- The state `d` after `d.SetId` and the five `d.Set` with a policy whose
identifier is `id`: the stored identifier and the attribute `id` are `id`, the
five attributes are those of the policy, and `domain` is as it was. -/
def written (d : ResourceData) (id : String) (obj : SecurityPolicy) : ResourceData :=
  { Id := id
    id := id
    display_name := obj.DisplayName.getD ""
    description := obj.Description.getD ""
    path := obj.Path.getD ""
    domain := d.domain
    is_default := obj.IsDefault.getD false
    category := obj.Category.getD "" }

/-- The results of a sequence of listing responses, one page after the other. -/
def pagesOf (responses : List SecurityPolicyListResult) : List SecurityPolicy :=
  (responses.map (fun r => r.Results)).flatten

/-- The cursor the loop passes to its call number `i` (from 0) when `responses`
are the answers to the calls before: nil first, then the cursor of the previous
answer. -/
def cursorAt (responses : List SecurityPolicyListResult) : Nat → Option String
  | 0 => none
  | i + 1 => (responses[i]?).bind (fun r => r.Cursor)

/-- The value of `total` after the first answer: its `ResultCount`, or 0 when it
has none. -/
def capturedTotal (responses : List SecurityPolicyListResult) : Int :=
  match responses with
  | [] => 0
  | r :: _ => r.ResultCount.getD 0

/-- The first `n` listing calls of a run whose answers are `responses`, the first
with the nil cursor, each later one with the cursor of the answer before. -/
def callsThrough (domain : String) (responses : List SecurityPolicyListResult) (n : Nat) :
    List ApiCall :=
  (List.range n).map (fun i => ApiCall.List domain (cursorAt responses i))

/-! ## Concrete services and queries -/

/-- A policy with the given identifier, display name, category and default flag. -/
def mkPolicy (id name category : String) (isDefault : Bool) : SecurityPolicy :=
  { Id := some id, DisplayName := some name, Description := none, Path := none,
    Category := some category, IsDefault := some isDefault }

/-- A local-manager service that answers the calls of a run from a script: call
number `n` of the listing gets the `n`-th entry, whatever the cursor; `Get`
answers with `getAnswer`, a not-found error being the one with text `NotFound`. -/
def scripted (script : List (SecurityPolicyListResult × Option ClientError))
    (getAnswer : SecurityPolicy × Option ClientError) : Connector :=
  { isPolicyGlobalManager := false
    isNotFoundError := fun e => decide (e = some ⟨"NotFound"⟩)
    Get := fun _ _ => getAnswer
    globalManagerRead := fun _ => none
    List := fun n _ _ => script.getD n (⟨[], none, none⟩, some ⟨"no more answers"⟩) }

/-- A local-manager service that returns the whole collection in one page, with
its size as `ResultCount`. -/
def onePage (objList : List SecurityPolicy) : Connector :=
  scripted [(⟨objList, some objList.length, none⟩, none)] (⟨none, none, none, none, none, none⟩, some ⟨"NotFound"⟩)

/-- A query by display name, category and default flag, in domain `default`. -/
def queryByName (name category : String) (isDefault : Bool) : ResourceData :=
  { Id := "", id := "", display_name := name, description := "", path := "",
    domain := "default", is_default := isDefault, category := category }

/-- A query by identifier, in domain `default`. -/
def queryById (id name category : String) : ResourceData :=
  { Id := "", id := id, display_name := name, description := "", path := "",
    domain := "default", is_default := false, category := category }

/-- A service with two pages, found by cursor: the first page under the nil
cursor, the second under the cursor `p2`; `count` is the `ResultCount` of every
answer. -/
def twoPages (first second : List SecurityPolicy) (count : Option Int) : Connector :=
  { isPolicyGlobalManager := false
    isNotFoundError := fun e => decide (e = some ⟨"NotFound"⟩)
    Get := fun _ _ => (⟨none, none, none, none, none, none⟩, some ⟨"NotFound"⟩)
    globalManagerRead := fun _ => none
    List := fun _ _ cursor =>
      match cursor with
      | none => (⟨first, count, some "p2"⟩, none)
      | some _ => (⟨second, count, none⟩, none) }

/-- The candidates of the first example: `web` and `web-01`, category `App`. -/
def webPair : List SecurityPolicy :=
  [mkPolicy "p1" "web" "App" false, mkPolicy "p2" "web-01" "App" false]

/-- Two policies named `web`, one of them a default policy. -/
def webTwice : List SecurityPolicy :=
  [mkPolicy "p1" "web" "App" false, mkPolicy "p2" "web" "App" true]

/-- Two policies named `web` with the same category and default flag. -/
def webSame : List SecurityPolicy :=
  [mkPolicy "p1" "web" "App" false, mkPolicy "p2" "web" "App" false]

/-- The candidates of the second example: `web-01` and `web-02`. -/
def webNumbered : List SecurityPolicy :=
  [mkPolicy "p1" "web-01" "App" false, mkPolicy "p2" "web-02" "App" false]

/-- The pages of the two-page service. -/
def twoPagesOf (first second : List SecurityPolicy) : List (List SecurityPolicy) :=
  [first, second]

/-- The cursors of the two-page service: nil, then `p2`, then nil again. -/
def twoPagesCursor : Nat → Option String
  | 1 => some "p2"
  | _ => none

/-- A script: one page that announces three results and hands out the cursor
`c1`, then a failure. -/
def failingScript : List (SecurityPolicyListResult × Option ClientError) :=
  [(⟨[mkPolicy "p1" "web" "App" false], some 3, some "c1"⟩, none),
   (⟨[], none, none⟩, some ⟨"connection reset"⟩)]

/-- The resource state of the subnet example: stored identifier `abc123`. -/
def storedSubnet : SubnetData :=
  { Id := "abc123", revision := 1, description := "d", display_name := "subnet",
    tag := [], block_id := "b1", size := 16, cidr := "10.0.0.0/28",
    allocation_ranges := [("10.0.0.1", "10.0.0.14")] }

/-- A subnet service that answers every read and delete with the given status
and error. -/
def subnetService (status : Int) (err : Option ClientError) : APIClient :=
  { ReadIpBlockSubnet := fun _ => (⟨"", "", "", "", 0, [], [], "", 0⟩, some ⟨status⟩, err)
    DeleteIpBlockSubnet := fun _ => (some ⟨status⟩, err)
    setAllocationRangesError := fun _ => none }

/-- A `ResultCount` that is the same on every answer. -/
def sameCount (n : Int) : Nat → Option Int :=
  fun _ => some n

/-- The policy `web` and a policy without display name. -/
def webAndNameless : List SecurityPolicy :=
  [mkPolicy "p1" "web" "App" false,
   { Id := some "p2", DisplayName := none, Description := none, Path := none,
     Category := some "App", IsDefault := some false }]

/-- The policies `web-01` and `web-02` and a policy without default flag. -/
def webNumberedAndFlagless : List SecurityPolicy :=
  webNumbered ++
    [{ Id := some "p3", DisplayName := some "db", Description := none, Path := none,
       Category := some "App", IsDefault := none }]

/-- A single policy without category. -/
def uncategorised : List SecurityPolicy :=
  [{ Id := some "p1", DisplayName := some "web", Description := none, Path := none,
     Category := none, IsDefault := some false }]

/-- A policy without identifier. -/
def policyWithoutId : SecurityPolicy :=
  { Id := none, DisplayName := some "web", Description := none, Path := none,
    Category := some "App", IsDefault := some false }

/-! ## The matching loop -/

theorem matchStep_ne_error (category : String) (isDefault : Bool) (objName : String)
    (o : SecurityPolicy) (perf pre : List SecurityPolicy) (msg : String) :
    matchStep category isDefault objName o perf pre ≠ .error msg := by
  unfold matchStep checkDefault classify
  intro h
  repeat' split at h
  all_goals cases h

theorem matchLoop_ne_error (category : String) (isDefault : Bool) (objName : String) :
    ∀ (objList perf pre : List SecurityPolicy) (msg : String),
      matchLoop category isDefault objName objList perf pre ≠ .error msg := by
  intro objList
  induction objList with
  | nil => intro perf pre msg h; simp [matchLoop] at h
  | cons o rest ih =>
    intro perf pre msg h
    rw [matchLoop] at h
    cases hstep : matchStep category isDefault objName o perf pre with
    | ok p =>
      rw [hstep] at h
      exact ih _ _ _ h
    | error e => exact matchStep_ne_error _ _ _ _ _ _ _ hstep
    | nilDeref =>
      rw [hstep] at h
      cases h

/-- An iteration of the matching loop that does not panic updates the buckets by
the filters, whatever fields the candidate carries. -/
theorem matchStep_ok (category : String) (isDefault : Bool) (objName : String)
    (o : SecurityPolicy) (perf pre : List SecurityPolicy)
    (r : List SecurityPolicy × List SecurityPolicy)
    (h : matchStep category isDefault objName o perf pre = .ok r) :
    r = (if passesFilters category isDefault o &&
              (decide (objName ≠ "") && nameEquals objName o) then perf ++ [o] else perf,
         if passesFilters category isDefault o && nameStartsWith objName o
           then pre ++ [o] else pre) := by
  rcases o with ⟨oid, dn, desc, path, cat, dflt⟩
  unfold matchStep checkDefault classify at h
  unfold passesFilters nameEquals nameStartsWith
  by_cases hc : category = ""
  · subst hc
    rcases dflt with _ | dflt
    · simp at h
    · by_cases hd : dflt = isDefault
      · subst hd
        by_cases hn : objName = ""
        · subst hn
          simp at h
          simp [← h]
        · rcases dn with _ | dn
          · simp [hn] at h
          · simp [hn] at h
            by_cases he : dn = objName <;> simp [← h, hn, he]
      · simp [hd] at h
        simp [← h, hd]
  · rcases cat with _ | cat
    · simp [hc] at h
    · by_cases hcat : category = cat
      · subst hcat
        rcases dflt with _ | dflt
        · simp [hc] at h
        · by_cases hd : dflt = isDefault
          · subst hd
            by_cases hn : objName = ""
            · subst hn
              simp [hc] at h
              simp [← h, hc]
            · rcases dn with _ | dn
              · simp [hn, hc] at h
              · simp [hn, hc] at h
                by_cases he : dn = objName <;> simp [← h, hn, he, hc]
          · simp [hd, hc] at h
            simp [← h, hd, hc]
      · have hcat2 : ¬ cat = category := fun h => hcat h.symm
        simp [hc, hcat] at h
        simp [← h, hc, hcat, hcat2]

theorem matchLoop_ok (category : String) (isDefault : Bool) (objName : String) :
    ∀ (objList perf pre : List SecurityPolicy) (r : List SecurityPolicy × List SecurityPolicy),
      matchLoop category isDefault objName objList perf pre = .ok r →
      r = (perf ++ objList.filter (fun o =>
              passesFilters category isDefault o &&
                (decide (objName ≠ "") && nameEquals objName o)),
           pre ++ startMatches category isDefault objName objList) := by
  intro objList
  induction objList with
  | nil =>
    intro perf pre r h
    simp [matchLoop] at h
    simp [← h, startMatches]
  | cons o rest ih =>
    intro perf pre r h
    rw [matchLoop] at h
    cases hstep : matchStep category isDefault objName o perf pre with
    | error e => rw [hstep] at h; cases h
    | nilDeref => rw [hstep] at h; cases h
    | ok p =>
      rw [hstep] at h
      dsimp only at h
      have hp := matchStep_ok _ _ _ _ _ _ _ hstep
      rw [hp] at h
      rw [ih _ _ _ h]
      simp only [List.filter_cons, startMatches]
      split_ifs <;> simp

/-- On a readable candidate an iteration of the matching loop does not panic. -/
theorem matchStep_readable (category : String) (isDefault : Bool) (objName : String)
    (o : SecurityPolicy) (perf pre : List SecurityPolicy)
    (h : Readable category isDefault objName o) :
    matchStep category isDefault objName o perf pre ≠ .nilDeref := by
  rcases o with ⟨oid, dn, desc, path, cat, dflt⟩
  unfold Readable passesFilters at h
  unfold matchStep checkDefault classify
  intro hnil
  by_cases hc : category = ""
  · subst hc
    rcases dflt with _ | dflt
    · simp at h
    · by_cases hd : dflt = isDefault
      · subst hd
        by_cases hn : objName = ""
        · simp [hn] at hnil
        · rcases dn with _ | dn
          · simp [hn] at h
          · simp [hn] at hnil
      · simp [hd] at hnil
  · rcases cat with _ | cat
    · simp [hc] at h
    · by_cases hcat : category = cat
      · subst hcat
        rcases dflt with _ | dflt
        · simp at h
        · by_cases hd : dflt = isDefault
          · subst hd
            by_cases hn : objName = ""
            · simp [hn, hc] at hnil
            · rcases dn with _ | dn
              · simp [hn] at h
              · simp [hn, hc] at hnil
          · simp [hd, hc] at hnil
      · simp [hc, hcat] at hnil

theorem matchStep_of_readable (category : String) (isDefault : Bool) (objName : String)
    (o : SecurityPolicy) (perf pre : List SecurityPolicy)
    (h : Readable category isDefault objName o) :
    matchStep category isDefault objName o perf pre =
      .ok (if passesFilters category isDefault o &&
              (decide (objName ≠ "") && nameEquals objName o) then perf ++ [o] else perf,
           if passesFilters category isDefault o && nameStartsWith objName o
             then pre ++ [o] else pre) := by
  cases hs : matchStep category isDefault objName o perf pre with
  | ok r => rw [matchStep_ok _ _ _ _ _ _ _ hs]
  | error e => exact absurd hs (matchStep_ne_error _ _ _ _ _ _ _)
  | nilDeref => exact absurd hs (matchStep_readable _ _ _ _ _ _ h)

theorem matchLoop_readable (category : String) (isDefault : Bool) (objName : String) :
    ∀ (objList perf pre : List SecurityPolicy),
      (∀ o ∈ objList, Readable category isDefault objName o) →
      matchLoop category isDefault objName objList perf pre =
        .ok (perf ++ objList.filter (fun o =>
                passesFilters category isDefault o &&
                  (decide (objName ≠ "") && nameEquals objName o)),
             pre ++ startMatches category isDefault objName objList) := by
  intro objList
  induction objList with
  | nil => intro perf pre _; simp [matchLoop, startMatches]
  | cons o rest ih =>
    intro perf pre h
    have ho : Readable category isDefault objName o := h o (List.mem_cons_self _ _)
    have hrest : ∀ x ∈ rest, Readable category isDefault objName x :=
      fun x hx => h x (List.mem_cons_of_mem _ hx)
    rw [matchLoop, matchStep_of_readable _ _ _ _ _ _ ho]
    simp only [ih _ _ hrest, List.filter_cons, startMatches]
    split_ifs <;> simp

/-- An iteration of the matching loop that does not panic was on a readable
candidate: `Readable` is exactly the absence of a nil dereference. -/
theorem readable_of_matchStep_ok (category : String) (isDefault : Bool) (objName : String)
    (o : SecurityPolicy) (perf pre : List SecurityPolicy)
    (r : List SecurityPolicy × List SecurityPolicy)
    (h : matchStep category isDefault objName o perf pre = .ok r) :
    Readable category isDefault objName o := by
  rcases o with ⟨oid, dn, desc, path, cat, dflt⟩
  unfold matchStep checkDefault classify at h
  unfold Readable passesFilters
  by_cases hc : category = ""
  · subst hc
    rcases dflt with _ | dflt
    · simp at h
    · by_cases hd : dflt = isDefault
      · subst hd
        by_cases hn : objName = ""
        · simp [hn]
        · rcases dn with _ | dn
          · simp [hn] at h
          · simp
      · have hd2 : ¬ isDefault = dflt := fun e => hd e.symm
        simp [hd, hd2]
  · rcases cat with _ | cat
    · simp [hc] at h
    · by_cases hcat : category = cat
      · subst hcat
        rcases dflt with _ | dflt
        · simp [hc] at h
        · by_cases hd : dflt = isDefault
          · subst hd
            by_cases hn : objName = ""
            · simp [hn]
            · rcases dn with _ | dn
              · simp [hn, hc] at h
              · simp
          · have hd2 : ¬ isDefault = dflt := fun e => hd e.symm
            simp [hd, hd2]
      · have hcat2 : ¬ cat = category := fun e => hcat e.symm
        simp [hc, hcat, hcat2]

/-- A candidate that is not readable makes the matching loop panic. -/
theorem matchLoop_unreadable (category : String) (isDefault : Bool) (objName : String) :
    ∀ (objList perf pre : List SecurityPolicy),
      (∃ o ∈ objList, ¬ Readable category isDefault objName o) →
      matchLoop category isDefault objName objList perf pre = .nilDeref := by
  intro objList
  induction objList with
  | nil => intro perf pre h; obtain ⟨o, ho, -⟩ := h; cases ho
  | cons a rest ih =>
    intro perf pre h
    rw [matchLoop]
    cases hs : matchStep category isDefault objName a perf pre with
    | nilDeref => rfl
    | error e => exact absurd hs (matchStep_ne_error _ _ _ _ _ _ _)
    | ok r =>
      obtain ⟨p1, p2⟩ := r
      dsimp only
      apply ih
      obtain ⟨o, ho, hno⟩ := h
      rcases List.mem_cons.mp ho with heq | hin
      · subst heq
        exact absurd (readable_of_matchStep_ok _ _ _ _ _ _ _ hs) hno
      · exact ⟨o, hin, hno⟩

/-- With a name in the query, the perfect-match bucket is `exactMatches`. -/
theorem matchLoop_named (category : String) (isDefault : Bool) (objName : String)
    (objList : List SecurityPolicy)
    (h : ∀ o ∈ objList, Readable category isDefault objName o) (hn : objName ≠ "") :
    matchLoop category isDefault objName objList [] [] =
      .ok (exactMatches category isDefault objName objList,
           startMatches category isDefault objName objList) := by
  rw [matchLoop_readable _ _ _ _ _ _ h]
  simp [exactMatches, hn]

/-- Without a name in the query, the perfect-match bucket stays empty. -/
theorem matchLoop_unnamed (category : String) (isDefault : Bool)
    (objList : List SecurityPolicy) (h : ∀ o ∈ objList, Readable category isDefault "" o) :
    matchLoop category isDefault "" objList [] [] =
      .ok ([], startMatches category isDefault "" objList) := by
  rw [matchLoop_readable _ _ _ _ _ _ h]
  simp

theorem exactMatches_sub_startMatches (category : String) (isDefault : Bool) (objName : String)
    (objList : List SecurityPolicy) (o : SecurityPolicy)
    (h : o ∈ exactMatches category isDefault objName objList) :
    o ∈ startMatches category isDefault objName objList := by
  simp only [exactMatches, startMatches, List.mem_filter, Bool.and_eq_true] at h ⊢
  refine ⟨h.1, h.2.1, ?_⟩
  have hname := h.2.2
  simp only [nameEquals, decide_eq_true_eq] at hname
  simp [nameStartsWith, hname, HasPrefix]

/-- The read in the name branch, once the listing has returned `objList`. -/
theorem read_of_listing (m : Connector) (d : ResourceData) (fuel : Nat)
    (objList : List SecurityPolicy) (calls : List ApiCall)
    (hlocal : m.isPolicyGlobalManager = false) (hid : d.id = "")
    (hcrit : ¬ (d.display_name = "" ∧ d.category = ""))
    (hlist : listSecurityPolicies m d.domain fuel = some ⟨objList, none, calls⟩) :
    dataSourceNsxtPolicySecurityPolicyRead m d fuel =
      some ⟨calls, resolveByName d d.category d.is_default d.display_name objList⟩ := by
  simp [dataSourceNsxtPolicySecurityPolicyRead, hlocal, hid, hcrit, hlist]

/-! ## Resolution by name and category -/

/-- The buckets of the matching loop on readable candidates, for any query. -/
theorem resolveByName_readable (d : ResourceData) (category : String) (isDefault : Bool)
    (objName : String) (objList : List SecurityPolicy)
    (h : ∀ o ∈ objList, Readable category isDefault objName o) :
    resolveByName d category isDefault objName objList =
      match pickMatch category objName
          (if objName = "" then [] else exactMatches category isDefault objName objList)
          (startMatches category isDefault objName objList) with
      | .ok obj => setPolicy d obj
      | .error msg => .error msg
      | .nilDeref => .nilDeref := by
  unfold resolveByName
  by_cases hn : objName = ""
  · subst hn
    rw [matchLoop_unnamed _ _ _ h]
    simp
  · rw [matchLoop_named _ _ _ _ h hn]
    simp [hn]

/-- C1 as stated fails: exactly one filtered candidate is named `web`, but the
list also holds a policy without display name, and the read ends in a nil
dereference at `*objInList.DisplayName` instead of returning `web`. -/
theorem read_exact_match_nil_name :
    exactMatches "" false "web" webAndNameless = [mkPolicy "p1" "web" "App" false] ∧
      listSecurityPolicies (onePage webAndNameless) "default" 1 =
        some ⟨webAndNameless, none, [ApiCall.List "default" none]⟩ ∧
      dataSourceNsxtPolicySecurityPolicyRead (onePage webAndNameless)
          (queryByName "web" "" false) 1 =
        some ⟨[ApiCall.List "default" none], .nilDeref⟩ := by
  decide

/-- C1 (amended): local manager, empty id, non-empty display name.  For every
enumerated list on which the matching loop reads no nil field, if exactly one
candidate that passes the category and default-flag filters has the queried
display name and it carries an identifier, the read succeeds and writes that
candidate to the state, whatever the number of other candidates whose display
name only starts with the queried name. -/
theorem read_exact_match_wins (m : Connector) (d : ResourceData) (fuel : Nat)
    (objList : List SecurityPolicy) (calls : List ApiCall) (p : SecurityPolicy) (id : String)
    (hlocal : m.isPolicyGlobalManager = false) (hid : d.id = "")
    (hname : d.display_name ≠ "")
    (hlist : listSecurityPolicies m d.domain fuel = some ⟨objList, none, calls⟩)
    (hread : ∀ o ∈ objList, Readable d.category d.is_default d.display_name o)
    (hone : exactMatches d.category d.is_default d.display_name objList = [p])
    (hpid : p.Id = some id) :
    dataSourceNsxtPolicySecurityPolicyRead m d fuel = some ⟨calls, .ok (written d id p)⟩ := by
  rw [read_of_listing m d fuel objList calls hlocal hid (fun h => hname h.1) hlist,
    resolveByName_readable _ _ _ _ _ hread, hone]
  simp [pickMatch, setPolicy, written, hpid, hname]

theorem read_exact_match_wins_witness :
    dataSourceNsxtPolicySecurityPolicyRead (onePage webPair) (queryByName "web" "" false) 1 =
      some ⟨[ApiCall.List "default" none],
        .ok { Id := "p1", id := "p1", display_name := "web", description := "", path := "",
              domain := "default", is_default := false, category := "App" }⟩ :=
  read_exact_match_wins (onePage webPair) (queryByName "web" "" false) 1 webPair
    [ApiCall.List "default" none] (mkPolicy "p1" "web" "App" false) "p1"
    rfl rfl (by decide) (by decide) (by simp [webPair, Readable, mkPolicy]) (by decide) rfl

/-- C2 as stated fails: two candidates have the queried display name `web`, but
only one of them passes the default-flag filter, and the read succeeds with that
one instead of reporting an ambiguity. -/
theorem read_same_name_other_flag :
    2 ≤ (webTwice.filter (nameEquals "web")).length ∧
      listSecurityPolicies (onePage webTwice) "default" 1 =
        some ⟨webTwice, none, [ApiCall.List "default" none]⟩ ∧
      dataSourceNsxtPolicySecurityPolicyRead (onePage webTwice) (queryByName "web" "" false) 1 =
        some ⟨[ApiCall.List "default" none],
          .ok { Id := "p1", id := "p1", display_name := "web", description := "", path := "",
                domain := "default", is_default := false, category := "App" }⟩ := by
  decide

theorem pickMatch_two_exact (category objName : String) (a b : SecurityPolicy)
    (rest pre : List SecurityPolicy) :
    pickMatch category objName (a :: b :: rest) pre =
      .error ("Found multiple Security Policies with name '" ++ objName ++ "'") := by
  simp [pickMatch]

theorem pickMatch_two_start (category objName : String) (a b : SecurityPolicy)
    (rest : List SecurityPolicy) :
    pickMatch category objName [] (a :: b :: rest) =
      .error ("Found multiple Security Policies with name starting with '" ++ objName ++
        "' and category '" ++ category ++ "'") := by
  simp [pickMatch]

theorem two_le_length {α : Type} (l : List α) (h : 2 ≤ l.length) :
    ∃ a b rest, l = a :: b :: rest := by
  match l, h with
  | a :: b :: rest, _ => exact ⟨a, b, rest, rfl⟩

/-- C2 (amended): for every enumerated list on which the matching loop reads no
nil field and every non-empty queried display name, if two or more candidates
that pass the category and default-flag filters have the queried display name,
the read fails with "Found multiple Security Policies with name '<name>'" and
writes no entity. -/
theorem read_duplicate_exact_name (m : Connector) (d : ResourceData) (fuel : Nat)
    (objList : List SecurityPolicy) (calls : List ApiCall)
    (hlocal : m.isPolicyGlobalManager = false) (hid : d.id = "")
    (hname : d.display_name ≠ "")
    (hlist : listSecurityPolicies m d.domain fuel = some ⟨objList, none, calls⟩)
    (hread : ∀ o ∈ objList, Readable d.category d.is_default d.display_name o)
    (htwo : 2 ≤ (exactMatches d.category d.is_default d.display_name objList).length) :
    dataSourceNsxtPolicySecurityPolicyRead m d fuel =
      some ⟨calls, .error ("Found multiple Security Policies with name '" ++
        d.display_name ++ "'")⟩ := by
  obtain ⟨a, b, rest, hab⟩ := two_le_length _ htwo
  rw [read_of_listing m d fuel objList calls hlocal hid (fun h => hname h.1) hlist,
    resolveByName_readable _ _ _ _ _ hread, hab, if_neg hname, pickMatch_two_exact]

theorem read_duplicate_exact_name_witness :
    dataSourceNsxtPolicySecurityPolicyRead (onePage webSame) (queryByName "web" "" false) 1 =
      some ⟨[ApiCall.List "default" none],
        .error ("Found multiple Security Policies with name '" ++ "web" ++ "'")⟩ :=
  read_duplicate_exact_name (onePage webSame) (queryByName "web" "" false) 1 webSame
    [ApiCall.List "default" none] rfl rfl (by decide) (by decide)
    (by simp [webSame, Readable, mkPolicy]) (by decide)

/-- C3 as stated fails: no filtered candidate is named `web`, two filtered
candidates start with `web`, but the list also holds a policy without default
flag, and the read ends in a nil dereference at `*objInList.IsDefault` instead of
the ambiguity error. -/
theorem read_ambiguous_nil_flag :
    exactMatches "" false "web" webNumberedAndFlagless = [] ∧
      2 ≤ (startMatches "" false "web" webNumberedAndFlagless).length ∧
      listSecurityPolicies (onePage webNumberedAndFlagless) "default" 1 =
        some ⟨webNumberedAndFlagless, none, [ApiCall.List "default" none]⟩ ∧
      dataSourceNsxtPolicySecurityPolicyRead (onePage webNumberedAndFlagless)
          (queryByName "web" "" false) 1 =
        some ⟨[ApiCall.List "default" none], .nilDeref⟩ := by
  decide

/-- C3 (amended): for every enumerated list on which the matching loop reads no
nil field, if no filtered candidate has the queried display name and two or more
filtered candidates count as matches by name start (every filtered candidate when
no name is queried), the read fails with "Found multiple Security Policies with
name starting with '<name>' and category '<category>'" and writes no entity. -/
theorem read_ambiguous_name_start (m : Connector) (d : ResourceData) (fuel : Nat)
    (objList : List SecurityPolicy) (calls : List ApiCall)
    (hlocal : m.isPolicyGlobalManager = false) (hid : d.id = "")
    (hcrit : ¬ (d.display_name = "" ∧ d.category = ""))
    (hlist : listSecurityPolicies m d.domain fuel = some ⟨objList, none, calls⟩)
    (hread : ∀ o ∈ objList, Readable d.category d.is_default d.display_name o)
    (hnone : exactMatches d.category d.is_default d.display_name objList = [])
    (htwo : 2 ≤ (startMatches d.category d.is_default d.display_name objList).length) :
    dataSourceNsxtPolicySecurityPolicyRead m d fuel =
      some ⟨calls, .error ("Found multiple Security Policies with name starting with '" ++
        d.display_name ++ "' and category '" ++ d.category ++ "'")⟩ := by
  obtain ⟨a, b, rest, hab⟩ := two_le_length _ htwo
  rw [read_of_listing m d fuel objList calls hlocal hid hcrit hlist,
    resolveByName_readable _ _ _ _ _ hread, hab, hnone, ite_self, pickMatch_two_start]

theorem read_ambiguous_name_start_witness :
    dataSourceNsxtPolicySecurityPolicyRead (onePage webNumbered) (queryByName "web" "" false) 1 =
      some ⟨[ApiCall.List "default" none],
        .error ("Found multiple Security Policies with name starting with '" ++
          "web" ++ "' and category '" ++ "" ++ "'")⟩ :=
  read_ambiguous_name_start (onePage webNumbered) (queryByName "web" "" false) 1 webNumbered
    [ApiCall.List "default" none] rfl rfl (by decide) (by decide)
    (by simp [webNumbered, Readable, mkPolicy]) (by decide) (by decide)

theorem found_ne_notFound (x y : String) :
    "Found multiple Security Policies with name" ++ x ≠ "Security Policy with name '" ++ y := by
  intro h
  have := congrArg String.data h
  simp at this

theorem pickMatch_error_forms (category objName : String) (perfect : List SecurityPolicy)
    (a : SecurityPolicy) (rest : List SecurityPolicy) (msg : String)
    (h : pickMatch category objName perfect (a :: rest) = .error msg) :
    ∃ x, msg = "Found multiple Security Policies with name" ++ x := by
  cases perfect with
  | nil =>
    cases rest with
    | nil => simp [pickMatch] at h
    | cons b r =>
      rw [pickMatch_two_start] at h
      refine ⟨" starting with '" ++ objName ++ "' and category '" ++ category ++ "'", ?_⟩
      rw [← Outcome.error.inj h]
      apply String.ext
      simp
  | cons p more =>
    cases more with
    | nil => simp [pickMatch] at h
    | cons b r =>
      rw [pickMatch_two_exact] at h
      refine ⟨" '" ++ objName ++ "'", ?_⟩
      rw [← Outcome.error.inj h]
      apply String.ext
      simp

/-- C4 as stated fails: a category is queried and the only candidate has none, so
no candidate satisfies the filters, and the read ends in a nil dereference at
`*objInList.Category` instead of the not-found error. -/
theorem read_not_found_nil_category :
    startMatches "App" false "" uncategorised = [] ∧
      listSecurityPolicies (onePage uncategorised) "default" 1 =
        some ⟨uncategorised, none, [ApiCall.List "default" none]⟩ ∧
      dataSourceNsxtPolicySecurityPolicyRead (onePage uncategorised)
          (queryByName "" "App" false) 1 =
        some ⟨[ApiCall.List "default" none], .nilDeref⟩ := by
  decide

/-- C4 (amended): for every enumerated list on which the matching loop reads no
nil field (the empty list included), the read fails with "Security Policy with
name '<name>' and category '<category>' was not found" exactly when no candidate
satisfies all the filters: category equality when a category is queried,
default-flag equality, and display name starting with the queried name when a
name is queried. -/
theorem read_not_found_iff (m : Connector) (d : ResourceData) (fuel : Nat)
    (objList : List SecurityPolicy) (calls : List ApiCall)
    (hlocal : m.isPolicyGlobalManager = false) (hid : d.id = "")
    (hcrit : ¬ (d.display_name = "" ∧ d.category = ""))
    (hlist : listSecurityPolicies m d.domain fuel = some ⟨objList, none, calls⟩)
    (hread : ∀ o ∈ objList, Readable d.category d.is_default d.display_name o) :
    startMatches d.category d.is_default d.display_name objList = [] ↔
      dataSourceNsxtPolicySecurityPolicyRead m d fuel =
        some ⟨calls, .error ("Security Policy with name '" ++ d.display_name ++
          "' and category '" ++ d.category ++ "' was not found")⟩ := by
  rw [read_of_listing m d fuel objList calls hlocal hid hcrit hlist,
    resolveByName_readable _ _ _ _ _ hread]
  constructor
  · intro h0
    have he : exactMatches d.category d.is_default d.display_name objList = [] := by
      apply List.eq_nil_iff_forall_not_mem.mpr
      intro o ho
      have := exactMatches_sub_startMatches _ _ _ _ o ho
      rw [h0] at this
      exact absurd this (List.not_mem_nil o)
    rw [h0, he, ite_self]
    simp [pickMatch]
  · intro h
    by_contra hne
    have hstart : ∃ a rest, startMatches d.category d.is_default d.display_name objList = a :: rest := by
      cases hs : startMatches d.category d.is_default d.display_name objList with
      | nil => exact absurd hs hne
      | cons a rest => exact ⟨a, rest, rfl⟩
    obtain ⟨a, rest, hs⟩ := hstart
    rw [hs] at h
    generalize (if d.display_name = "" then []
      else exactMatches d.category d.is_default d.display_name objList) = perfect at h
    have key := pickMatch_error_forms d.category d.display_name perfect a rest
    cases hp : pickMatch d.category d.display_name perfect (a :: rest) with
    | ok obj =>
      rw [hp] at h
      simp only [setPolicy] at h
      split at h <;> simp at h
    | error msg =>
      rw [hp] at h
      obtain ⟨x, hx⟩ := key msg hp
      simp only [Option.some.injEq, Run.mk.injEq, Outcome.error.injEq, true_and] at h
      rw [hx, String.append_assoc, String.append_assoc, String.append_assoc] at h
      exact found_ne_notFound _ _ h
    | nilDeref =>
      rw [hp] at h
      simp at h

theorem read_not_found_iff_witness :
    dataSourceNsxtPolicySecurityPolicyRead (onePage webPair) (queryByName "db" "" false) 1 =
      some ⟨[ApiCall.List "default" none], .error ("Security Policy with name '" ++ "db" ++
        "' and category '" ++ "" ++ "' was not found")⟩ :=
  (read_not_found_iff (onePage webPair) (queryByName "db" "" false) 1 webPair
    [ApiCall.List "default" none] rfl rfl (by decide) (by decide)
    (by simp [webPair, Readable, mkPolicy])).mp (by decide)

/-! ## The listing loop -/

theorem listLoop_ok_step (m : Connector) (domain : String) (fuel : Nat)
    (results : List SecurityPolicy) (cursor : Option String) (total : Int)
    (calls : List ApiCall) (policies : SecurityPolicyListResult)
    (h : m.List calls.length domain cursor = (policies, none)) :
    listLoop m domain (fuel + 1) results cursor total calls =
      if (match policies.ResultCount with
          | some n => if total = 0 then n else total
          | none => total) ≤ ((results ++ policies.Results).length : Int) then
        some ⟨results ++ policies.Results, none, calls ++ [ApiCall.List domain cursor]⟩
      else
        listLoop m domain fuel (results ++ policies.Results) policies.Cursor
          (match policies.ResultCount with
           | some n => if total = 0 then n else total
           | none => total)
          (calls ++ [ApiCall.List domain cursor]) := by
  rw [listLoop, h]

theorem listLoop_err_step (m : Connector) (domain : String) (fuel : Nat)
    (results : List SecurityPolicy) (cursor : Option String) (total : Int)
    (calls : List ApiCall) (policies : SecurityPolicyListResult) (e : ClientError)
    (h : m.List calls.length domain cursor = (policies, some e)) :
    listLoop m domain (fuel + 1) results cursor total calls =
      some ⟨results, some e, calls ++ [ApiCall.List domain cursor]⟩ := by
  rw [listLoop, h]

theorem pagesOf_take_succ (oks : List SecurityPolicyListResult) (i : Nat) (hi : i < oks.length) :
    pagesOf (oks.take (i + 1)) = pagesOf (oks.take i) ++ oks[i].Results := by
  unfold pagesOf
  rw [List.take_succ, List.getElem?_eq_getElem hi, List.map_append, List.flatten_append]
  simp

theorem cursorAt_succ (oks : List SecurityPolicyListResult) (i : Nat) (hi : i < oks.length) :
    cursorAt oks (i + 1) = oks[i].Cursor := by
  show (oks[i]?).bind (fun r => r.Cursor) = oks[i].Cursor
  rw [List.getElem?_eq_getElem hi]
  rfl

theorem callsThrough_succ (domain : String) (oks : List SecurityPolicyListResult) (i : Nat) :
    callsThrough domain oks (i + 1) =
      callsThrough domain oks i ++ [ApiCall.List domain (cursorAt oks i)] := by
  simp [callsThrough, List.range_succ]

theorem callsThrough_length (domain : String) (oks : List SecurityPolicyListResult) (i : Nat) :
    (callsThrough domain oks i).length = i := by
  simp [callsThrough]

theorem capturedTotal_eq (oks : List SecurityPolicyListResult) (h : 0 < oks.length) :
    capturedTotal oks = (oks[0]).ResultCount.getD 0 := by
  match oks, h with
  | r :: rest, _ => rfl

/-- The loop runs through a sequence of successful answers after none of which
the accumulated length has reached the captured total. -/
theorem listLoop_advance (m : Connector) (domain : String)
    (oks : List SecurityPolicyListResult)
    (hok : ∀ i (hi : i < oks.length), m.List i domain (cursorAt oks i) = (oks[i], none))
    (hreach : ∀ j, 0 < j → j ≤ oks.length →
      ((pagesOf (oks.take j)).length : Int) < capturedTotal oks) :
    ∀ i, i ≤ oks.length → ∀ fuel,
      listLoop m domain (fuel + i) [] none 0 [] =
        listLoop m domain fuel (pagesOf (oks.take i)) (cursorAt oks i)
          (if i = 0 then 0 else capturedTotal oks) (callsThrough domain oks i) := by
  intro i
  induction i with
  | zero => intro _ fuel; simp [pagesOf, cursorAt, callsThrough]
  | succ i ih =>
    intro hi fuel
    have hi' : i < oks.length := by omega
    have h1 := ih (by omega) (fuel + 1)
    rw [show fuel + (i + 1) = fuel + 1 + i by omega, h1]
    have hcall : m.List (callsThrough domain oks i).length domain (cursorAt oks i) =
        (oks[i], none) := by
      rw [callsThrough_length]; exact hok i hi'
    rw [listLoop_ok_step m domain fuel _ _ _ _ _ hcall]
    have hpos : 0 < capturedTotal oks := by
      have := hreach 1 (by omega) (by omega)
      have h0 : (0 : Int) ≤ ((pagesOf (oks.take 1)).length : Int) := Int.natCast_nonneg _
      omega
    have htot : (match oks[i].ResultCount with
          | some n => if (if i = 0 then 0 else capturedTotal oks) = 0 then n
              else (if i = 0 then 0 else capturedTotal oks)
          | none => (if i = 0 then 0 else capturedTotal oks)) = capturedTotal oks := by
      by_cases hi0 : i = 0
      · subst hi0
        rw [capturedTotal_eq oks hi']
        cases oks[0].ResultCount <;> simp
      · have hne : capturedTotal oks ≠ 0 := by omega
        cases oks[i].ResultCount <;> simp [hi0, hne]
    rw [htot, ← pagesOf_take_succ oks i hi', ← cursorAt_succ oks i hi',
      ← callsThrough_succ]
    have hlt := hreach (i + 1) (by omega) hi
    rw [if_neg (by omega)]
    simp

/-- C7: for every run in which the `k`-th listing call is the first to fail (the
`k - 1` calls before it succeeded and the count guard did not end the loop after
any of them), `listSecurityPolicies` makes exactly `k` calls and returns the
error of the failing call with the concatenation of the `k - 1` pages before it.
Here `k = oks.length + 1`. -/
theorem listSecurityPolicies_first_failure (m : Connector) (domain : String)
    (oks : List SecurityPolicyListResult) (bad : SecurityPolicyListResult) (e : ClientError)
    (fuel : Nat)
    (hok : ∀ i (hi : i < oks.length), m.List i domain (cursorAt oks i) = (oks[i], none))
    (hbad : m.List oks.length domain (cursorAt oks oks.length) = (bad, some e))
    (hreach : ∀ j, 0 < j → j ≤ oks.length →
      ((pagesOf (oks.take j)).length : Int) < capturedTotal oks)
    (hfuel : oks.length < fuel) :
    listSecurityPolicies m domain fuel =
        some ⟨pagesOf oks, some e, callsThrough domain oks (oks.length + 1)⟩ ∧
      (callsThrough domain oks (oks.length + 1)).length = oks.length + 1 := by
  refine ⟨?_, callsThrough_length _ _ _⟩
  obtain ⟨f, rfl⟩ : ∃ f, fuel = f + 1 + oks.length := ⟨fuel - 1 - oks.length, by omega⟩
  unfold listSecurityPolicies
  rw [listLoop_advance m domain oks hok hreach oks.length le_rfl (f + 1)]
  have hcall : m.List (callsThrough domain oks oks.length).length domain
      (cursorAt oks oks.length) = (bad, some e) := by
    rw [callsThrough_length]; exact hbad
  rw [listLoop_err_step m domain f _ _ _ _ _ e hcall, List.take_length, callsThrough_succ]

/-- C6 (amended): when the first answer carries no `ResultCount`, the loop ends
with that answer: one call, the results of the first page, no error. -/
theorem listSecurityPolicies_no_count (m : Connector) (domain : String)
    (first : SecurityPolicyListResult) (fuel : Nat)
    (hfirst : m.List 0 domain none = (first, none))
    (hcount : first.ResultCount = none) (hfuel : 0 < fuel) :
    listSecurityPolicies m domain fuel =
      some ⟨first.Results, none, [ApiCall.List domain none]⟩ := by
  obtain ⟨f, rfl⟩ : ∃ f, fuel = f + 1 := ⟨fuel - 1, by omega⟩
  unfold listSecurityPolicies
  rw [listLoop_ok_step m domain f [] none 0 [] first hfirst, hcount]
  simp

theorem flatten_take_full {α : Type} (L : List (List α)) (j : Nat)
    (h : L.flatten.length ≤ (L.take j).flatten.length) : (L.take j).flatten = L.flatten := by
  have hsplit : L.flatten = (L.take j).flatten ++ (L.drop j).flatten := by
    rw [← List.flatten_append, List.take_append_drop]
  have hlen : (L.drop j).flatten.length = 0 := by
    have := congrArg List.length hsplit
    rw [List.length_append] at this
    omega
  rw [hsplit, List.length_eq_zero.mp hlen, List.append_nil]

theorem flatten_take_succ {α : Type} (L : List (List α)) (i : Nat) (hi : i < L.length) :
    (L.take (i + 1)).flatten = (L.take i).flatten ++ L[i] := by
  rw [List.take_succ, List.getElem?_eq_getElem hi, List.flatten_append]
  simp

/-- The loop on a service that serves `pages` one after the other, from page `i`
on. -/
theorem listLoop_paged (m : Connector) (domain : String) (pages : List (List SecurityPolicy))
    (cur : Nat → Option String) (rc : Nat → Option Int)
    (hserve : ∀ i (hi : i < pages.length),
      m.List i domain (cur i) = (⟨pages[i], rc i, cur (i + 1)⟩, none))
    (hcount : rc 0 = some (pages.flatten.length : Int))
    (hne : pages.flatten ≠ []) :
    ∀ (k i : Nat) (total : Int) (calls : List ApiCall) (fuel : Nat),
      pages.length - i = k → i < pages.length → calls.length = i →
      total = (if i = 0 then 0 else (pages.flatten.length : Int)) →
      k ≤ fuel →
      ∃ run, listLoop m domain fuel (pages.take i).flatten (cur i) total calls = some run ∧
        run.err = none ∧ run.results = pages.flatten := by
  have hpos : (0 : Int) < (pages.flatten.length : Int) := by
    have := List.length_pos.mpr hne
    omega
  intro k
  induction k with
  | zero => intro i _ _ _ hk hi; omega
  | succ k ih =>
    intro i total calls fuel hk hi hcalls htotal hfuel
    obtain ⟨f, rfl⟩ : ∃ f, fuel = f + 1 := ⟨fuel - 1, by omega⟩
    have hcall : m.List calls.length domain (cur i) = (⟨pages[i], rc i, cur (i + 1)⟩, none) := by
      rw [hcalls]; exact hserve i hi
    rw [listLoop_ok_step m domain f _ _ _ _ _ hcall]
    have htot : (match rc i with
          | some n => if total = 0 then n else total
          | none => total) = (pages.flatten.length : Int) := by
      by_cases hi0 : i = 0
      · subst hi0
        simp [hcount, htotal]
      · rw [if_neg hi0] at htotal
        have hne0 : total ≠ 0 := by rw [htotal]; omega
        cases rc i with
        | none => exact htotal
        | some n => exact (if_neg hne0).trans htotal
    simp only [htot]
    rw [← flatten_take_succ pages i hi]
    by_cases hdone : (pages.flatten.length : Int) ≤ (((pages.take (i + 1)).flatten).length : Int)
    · rw [if_pos hdone]
      exact ⟨_, rfl, rfl, flatten_take_full pages (i + 1) (by omega)⟩
    · rw [if_neg hdone]
      have hi1 : i + 1 < pages.length := by
        by_contra hge
        rw [List.take_of_length_le (by omega)] at hdone
        omega
      exact ih (i + 1) _ _ f (by omega) hi1 (by simp [hcalls]) (by simp) (by omega)

/-- C5 as stated fails: a collection of two policies is served in two pages, every
answer announces a `ResultCount` of 1, and the loop returns the first page alone:
one result where the pages hold two. -/
theorem listSecurityPolicies_short_count :
    (twoPages [mkPolicy "p1" "web" "App" false] [mkPolicy "p2" "db" "App" false]
        (some 1)).List 0 "default" none =
        (⟨[mkPolicy "p1" "web" "App" false], some 1, some "p2"⟩, none) ∧
      (twoPages [mkPolicy "p1" "web" "App" false] [mkPolicy "p2" "db" "App" false]
        (some 1)).List 1 "default" (some "p2") =
        (⟨[mkPolicy "p2" "db" "App" false], some 1, none⟩, none) ∧
      ((twoPagesOf [mkPolicy "p1" "web" "App" false]
        [mkPolicy "p2" "db" "App" false]).map List.length).sum = 2 ∧
      listSecurityPolicies
        (twoPages [mkPolicy "p1" "web" "App" false] [mkPolicy "p2" "db" "App" false] (some 1))
        "default" 5 =
          some ⟨[mkPolicy "p1" "web" "App" false], none, [ApiCall.List "default" none]⟩ := by
  decide

/-- C5 (amended): for every non-empty collection served in pages along the
cursors, when the first answer carries the size of the whole collection as
`ResultCount`, `listSecurityPolicies` returns without error the concatenation of
the pages in the order served; its length is the sum of the page sizes and equals
that `ResultCount`. -/
theorem listSecurityPolicies_paged (m : Connector) (domain : String)
    (pages : List (List SecurityPolicy)) (cur : Nat → Option String) (rc : Nat → Option Int)
    (fuel : Nat)
    (hcur : cur 0 = none)
    (hserve : ∀ i (hi : i < pages.length),
      m.List i domain (cur i) = (⟨pages[i], rc i, cur (i + 1)⟩, none))
    (hcount : rc 0 = some (pages.flatten.length : Int))
    (hne : pages.flatten ≠ [])
    (hfuel : pages.length ≤ fuel) :
    ∃ run, listSecurityPolicies m domain fuel = some run ∧ run.err = none ∧
      run.results = pages.flatten ∧
      run.results.length = (pages.map List.length).sum ∧
      rc 0 = some (run.results.length : Int) := by
  have hlen : 0 < pages.length := by
    rcases pages with _ | ⟨p, ps⟩
    · exact absurd rfl hne
    · simp
  obtain ⟨run, hrun, herr, hres⟩ :=
    listLoop_paged m domain pages cur rc hserve hcount hne pages.length 0 0 [] fuel
      (by omega) hlen rfl (by simp) hfuel
  refine ⟨run, ?_, herr, hres, ?_, ?_⟩
  · unfold listSecurityPolicies
    rw [← hcur]
    simpa using hrun
  · rw [hres, List.length_flatten]
  · rw [hres]; exact hcount

theorem listSecurityPolicies_paged_witness :
    ∃ run, listSecurityPolicies
        (twoPages [mkPolicy "p1" "web" "App" false] [mkPolicy "p2" "db" "App" false] (some 2))
        "default" 2 = some run ∧ run.err = none ∧
      run.results = (twoPagesOf [mkPolicy "p1" "web" "App" false]
        [mkPolicy "p2" "db" "App" false]).flatten ∧
      run.results.length = ((twoPagesOf [mkPolicy "p1" "web" "App" false]
        [mkPolicy "p2" "db" "App" false]).map List.length).sum ∧
      sameCount 2 0 = some (run.results.length : Int) :=
  listSecurityPolicies_paged
    (twoPages [mkPolicy "p1" "web" "App" false] [mkPolicy "p2" "db" "App" false] (some 2))
    "default" (twoPagesOf [mkPolicy "p1" "web" "App" false] [mkPolicy "p2" "db" "App" false])
    twoPagesCursor (sameCount 2) 2 rfl
    (fun i hi => match i, hi with
      | 0, _ => rfl
      | 1, _ => rfl)
    rfl (by decide) (by decide)

/-- C6 as stated fails: no answer of this service carries a `ResultCount`, the
first answer has a non-empty page and a cursor, under which the second page is
served, and the loop returns the first page alone after one call. -/
theorem listSecurityPolicies_stops_without_count :
    (twoPages [mkPolicy "p1" "web" "App" false] [mkPolicy "p2" "db" "App" false] none).List
        0 "default" none = (⟨[mkPolicy "p1" "web" "App" false], none, some "p2"⟩, none) ∧
      (twoPages [mkPolicy "p1" "web" "App" false] [mkPolicy "p2" "db" "App" false] none).List
        1 "default" (some "p2") = (⟨[mkPolicy "p2" "db" "App" false], none, none⟩, none) ∧
      listSecurityPolicies
        (twoPages [mkPolicy "p1" "web" "App" false] [mkPolicy "p2" "db" "App" false] none)
        "default" 5 =
          some ⟨[mkPolicy "p1" "web" "App" false], none, [ApiCall.List "default" none]⟩ := by
  decide

theorem listSecurityPolicies_no_count_witness :
    listSecurityPolicies
        (twoPages [mkPolicy "p1" "web" "App" false] [mkPolicy "p2" "db" "App" false] none)
        "default" 1 =
      some ⟨[mkPolicy "p1" "web" "App" false], none, [ApiCall.List "default" none]⟩ :=
  listSecurityPolicies_no_count
    (twoPages [mkPolicy "p1" "web" "App" false] [mkPolicy "p2" "db" "App" false] none)
    "default" ⟨[mkPolicy "p1" "web" "App" false], none, some "p2"⟩ 1 rfl rfl (by decide)

theorem listSecurityPolicies_first_failure_witness :
    listSecurityPolicies (scripted failingScript (⟨none, none, none, none, none, none⟩, none))
        "default" 2 =
        some ⟨[mkPolicy "p1" "web" "App" false], some ⟨"connection reset"⟩,
          [ApiCall.List "default" none, ApiCall.List "default" (some "c1")]⟩ ∧
      [ApiCall.List "default" none, ApiCall.List "default" (some "c1")].length = 1 + 1 :=
  listSecurityPolicies_first_failure
    (scripted failingScript (⟨none, none, none, none, none, none⟩, none)) "default"
    [⟨[mkPolicy "p1" "web" "App" false], some 3, some "c1"⟩] ⟨[], none, none⟩
    ⟨"connection reset"⟩ 2
    (fun i hi => match i, hi with
      | 0, _ => rfl)
    rfl
    (fun j h0 h1 => by
      have hj : j = 1 := by simp at h1; omega
      subst hj
      decide)
    (by decide)

/-! ## The other branches of the read -/

theorem setPolicy_ne_error (d : ResourceData) (obj : SecurityPolicy) (msg : String) :
    setPolicy d obj ≠ .error msg := by
  unfold setPolicy
  intro h
  split at h <;> cases h

/-- Every error of the resolution starts with `Found` or with `Security Policy
with name '`. -/
theorem resolveByName_error_shape (d : ResourceData) (category : String) (isDefault : Bool)
    (objName : String) (objList : List SecurityPolicy) (msg : String)
    (h : resolveByName d category isDefault objName objList = .error msg) :
    (∃ x, msg = "Found" ++ x) ∨ (∃ x, msg = "Security Policy with name '" ++ x) := by
  unfold resolveByName at h
  cases hloop : matchLoop category isDefault objName objList [] [] with
  | error e => exact absurd hloop (matchLoop_ne_error _ _ _ _ _ _ _)
  | nilDeref => rw [hloop] at h; cases h
  | ok buckets =>
    obtain ⟨perfect, start⟩ := buckets
    rw [hloop] at h
    dsimp only at h
    cases hpick : pickMatch category objName perfect start with
    | ok obj =>
      rw [hpick] at h
      exact absurd h (setPolicy_ne_error _ _ _)
    | nilDeref => rw [hpick] at h; cases h
    | error e =>
      rw [hpick] at h
      have he : e = msg := Outcome.error.inj h
      subst he
      unfold pickMatch at hpick
      split at hpick
      · split at hpick
        · left
          refine ⟨" multiple Security Policies with name '" ++ objName ++ "'", ?_⟩
          rw [← Outcome.error.inj hpick]
          apply String.ext
          simp
        · cases hpick
      · split at hpick
        · split at hpick
          · left
            refine ⟨" multiple Security Policies with name starting with '" ++ objName ++
              "' and category '" ++ category ++ "'", ?_⟩
            rw [← Outcome.error.inj hpick]
            apply String.ext
            simp
          · cases hpick
        · right
          refine ⟨objName ++ "' and category '" ++ category ++ "' was not found", ?_⟩
          rw [← Outcome.error.inj hpick]
          apply String.ext
          simp

theorem insufficient_ne_found (x : String) :
    "Security Policy id, display name or category must be specified" ≠ "Found" ++ x := by
  intro h
  have := congrArg String.data h
  simp at this

theorem insufficient_ne_named (x : String) :
    "Security Policy id, display name or category must be specified" ≠
      "Security Policy with name '" ++ x := by
  intro h
  have := congrArg String.data h
  simp at this

theorem insufficient_ne_listing (x : String) :
    "Security Policy id, display name or category must be specified" ≠
      "Error while reading Security Policies: " ++ x := by
  intro h
  have := congrArg String.data h
  simp at this

/-- C8: local manager, empty id.  When display name and category are both empty,
the read fails with "Security Policy id, display name or category must be
specified" and makes no call to the service, whatever the fuel; when one of them
is non-empty, the read never returns this error. -/
theorem read_insufficient_criteria (m : Connector) (d : ResourceData) (fuel : Nat)
    (hlocal : m.isPolicyGlobalManager = false) (hid : d.id = "") :
    (d.display_name = "" ∧ d.category = "" →
      dataSourceNsxtPolicySecurityPolicyRead m d fuel =
        some ⟨[], .error "Security Policy id, display name or category must be specified"⟩) ∧
    (¬ (d.display_name = "" ∧ d.category = "") → ∀ calls,
      dataSourceNsxtPolicySecurityPolicyRead m d fuel ≠
        some ⟨calls, .error "Security Policy id, display name or category must be specified"⟩) := by
  constructor
  · intro hboth
    simp [dataSourceNsxtPolicySecurityPolicyRead, hlocal, hid, hboth]
  · intro hcrit calls h
    simp only [dataSourceNsxtPolicySecurityPolicyRead, hlocal, hid, hcrit] at h
    simp only [Bool.false_eq_true, if_false, ne_eq, not_true_eq_false] at h
    cases hl : listSecurityPolicies m d.domain fuel with
    | none => rw [hl] at h; cases h
    | some run =>
      rw [hl] at h
      dsimp only at h
      cases herr : run.err with
      | some e =>
        rw [herr] at h
        simp only [Option.some.injEq, Run.mk.injEq, Outcome.error.injEq] at h
        exact insufficient_ne_listing _ h.2.symm
      | none =>
        rw [herr] at h
        simp only [Option.some.injEq, Run.mk.injEq] at h
        rcases resolveByName_error_shape _ _ _ _ _ _ h.2 with ⟨x, hx⟩ | ⟨x, hx⟩
        · exact insufficient_ne_found _ hx
        · exact insufficient_ne_named _ hx

theorem read_insufficient_criteria_witness :
    dataSourceNsxtPolicySecurityPolicyRead (onePage webPair) (queryByName "" "" false) 0 =
      some ⟨[], .error "Security Policy id, display name or category must be specified"⟩ :=
  (read_insufficient_criteria (onePage webPair) (queryByName "" "" false) 0 rfl rfl).1
    ⟨rfl, rfl⟩

theorem readError_ne_notFound (x y : String) :
    "Error while reading Security Policy " ++ x ≠ "Security Policy with ID " ++ y := by
  intro h
  have := congrArg String.data h
  simp at this

/-- C9 as stated fails: `Get` answers without error with a policy that has no
identifier, and the read ends in a nil dereference at `d.SetId(*obj.Id)` instead
of returning the fetched policy. -/
theorem read_by_id_nil_id :
    (scripted [] (policyWithoutId, none)).Get "default" "abc123" = (policyWithoutId, none) ∧
      (scripted [] (policyWithoutId, none)).isNotFoundError none = false ∧
      dataSourceNsxtPolicySecurityPolicyRead (scripted [] (policyWithoutId, none))
          (queryById "abc123" "other" "Infrastructure") 0 =
        some ⟨[ApiCall.Get "default" "abc123"], .nilDeref⟩ := by
  decide

/-- C9 (amended): local manager, non-empty id.  The read makes the single call
`Get(domain, id)` and no listing call; it fails with "Security Policy with ID
<id> was not found" when the error of `Get` is a not-found error, with "Error
while reading Security Policy <id>: <cause>" (a different message) on any other
error, and otherwise writes the fetched policy when it carries an identifier and
ends in a nil dereference when it carries none; the outcome is the same for every
query with this id and domain, whatever its display name, category and default
flag. -/
theorem read_by_id (m : Connector) (d : ResourceData) (fuel : Nat)
    (hlocal : m.isPolicyGlobalManager = false) (hid : d.id ≠ "") :
    dataSourceNsxtPolicySecurityPolicyRead m d fuel =
        some ⟨[ApiCall.Get d.domain d.id],
          if m.isNotFoundError (m.Get d.domain d.id).2 then
            .error ("Security Policy with ID " ++ d.id ++ " was not found")
          else
            match (m.Get d.domain d.id).2 with
            | some e =>
              .error ("Error while reading Security Policy " ++ d.id ++ ": " ++ e.Error)
            | none =>
              match (m.Get d.domain d.id).1.Id with
              | some id => .ok (written d id (m.Get d.domain d.id).1)
              | none => .nilDeref⟩ ∧
      (∀ (q : ResourceData) (fuel2 : Nat), q.id = d.id → q.domain = d.domain →
        dataSourceNsxtPolicySecurityPolicyRead m q fuel2 =
          dataSourceNsxtPolicySecurityPolicyRead m d fuel) ∧
      (∀ cause : String,
        "Error while reading Security Policy " ++ d.id ++ ": " ++ cause ≠
          "Security Policy with ID " ++ d.id ++ " was not found") := by
  have main : ∀ (q : ResourceData) (f : Nat), q.id = d.id → q.domain = d.domain →
      dataSourceNsxtPolicySecurityPolicyRead m q f =
        some ⟨[ApiCall.Get d.domain d.id],
          if m.isNotFoundError (m.Get d.domain d.id).2 then
            .error ("Security Policy with ID " ++ d.id ++ " was not found")
          else
            match (m.Get d.domain d.id).2 with
            | some e =>
              .error ("Error while reading Security Policy " ++ d.id ++ ": " ++ e.Error)
            | none =>
              match (m.Get d.domain d.id).1.Id with
              | some id => .ok (written d id (m.Get d.domain d.id).1)
              | none => .nilDeref⟩ := by
    intro q f hq hdom
    rcases m with ⟨gm, nf, get, gr, lst⟩
    simp only at hlocal
    subst hlocal
    simp only [dataSourceNsxtPolicySecurityPolicyRead, hq, hdom]
    rcases get d.domain d.id with ⟨obj, err⟩
    by_cases hnf : nf err = true
    · simp [hnf, hid]
    · cases err with
      | some e => simp [hnf, hid]
      | none =>
        unfold setPolicy written
        cases obj.Id <;> simp [hnf, hid, hq, hdom]
  refine ⟨main d fuel rfl rfl, ?_, ?_⟩
  · intro q fuel2 hq hdom
    rw [main q fuel2 hq hdom, main d fuel rfl rfl]
  · intro cause
    rw [String.append_assoc, String.append_assoc, String.append_assoc]
    exact readError_ne_notFound _ _

theorem read_by_id_witness :
    dataSourceNsxtPolicySecurityPolicyRead
        (scripted [] (mkPolicy "abc123" "web" "App" false, none))
        (queryById "abc123" "other" "Infrastructure") 0 =
      some ⟨[ApiCall.Get "default" "abc123"],
        .ok { Id := "abc123", id := "abc123", display_name := "web", description := "",
              path := "", domain := "default", is_default := false, category := "App" }⟩ :=
  (read_by_id (scripted [] (mkPolicy "abc123" "web" "App" false, none))
    (queryById "abc123" "other" "Infrastructure") 0 rfl (by decide)).1

/-! ## The subnet resource -/

/-- C10: for every resource state with a non-empty stored id, when the service
answers the read with status 404, `resourceNsxtIpBlockSubnetRead` returns nil and
leaves the state with the stored id set to the empty string and every schema
attribute as it was. -/
theorem subnetRead_not_found (nsxClient : APIClient) (d : SubnetData)
    (ipBlockSubnet : IpBlockSubnet) (resp : HttpResponse) (err : Option ClientError)
    (hid : d.Id ≠ "")
    (hread : nsxClient.ReadIpBlockSubnet d.Id = (ipBlockSubnet, some resp, err))
    (hstatus : resp.StatusCode = 404) :
    resourceNsxtIpBlockSubnetRead nsxClient d =
      .ok { Id := "", revision := d.revision, description := d.description,
            display_name := d.display_name, tag := d.tag, block_id := d.block_id,
            size := d.size, cidr := d.cidr, allocation_ranges := d.allocation_ranges } := by
  simp [resourceNsxtIpBlockSubnetRead, hid, hread, hstatus, StatusNotFound]

theorem subnetRead_not_found_witness :
    resourceNsxtIpBlockSubnetRead (subnetService 404 (some ⟨"404 Not Found"⟩)) storedSubnet =
      .ok { Id := "", revision := 1, description := "d", display_name := "subnet",
            tag := [], block_id := "b1", size := 16, cidr := "10.0.0.0/28",
            allocation_ranges := [("10.0.0.1", "10.0.0.14")] } :=
  subnetRead_not_found (subnetService 404 (some ⟨"404 Not Found"⟩)) storedSubnet
    ⟨"", "", "", "", 0, [], [], "", 0⟩ ⟨404⟩ (some ⟨"404 Not Found"⟩) (by decide) rfl rfl

/-- C11 as stated fails: the deletion call answers with status 200 and no error,
the delete returns nil, and the stored identifier is still `abc123`. -/
theorem subnetDelete_ok_keeps_id :
    (subnetService 200 none).DeleteIpBlockSubnet "abc123" = (some ⟨200⟩, none) ∧
      resourceNsxtIpBlockSubnetDelete (subnetService 200 none) storedSubnet =
        .ok storedSubnet ∧
      storedSubnet.Id = "abc123" := by
  decide

/-- C11 (amended): for every resource state with a non-empty stored id and every
response of the deletion call that comes without an error,
`resourceNsxtIpBlockSubnetDelete` returns nil; the stored identifier is the empty
string afterwards when the status of the response is 404 and is the one stored
before for every other status; the schema attributes are as they were. -/
theorem subnetDelete_no_error (nsxClient : APIClient) (d : SubnetData) (resp : HttpResponse)
    (hid : d.Id ≠ "")
    (hdelete : nsxClient.DeleteIpBlockSubnet d.Id = (some resp, none)) :
    resourceNsxtIpBlockSubnetDelete nsxClient d =
      .ok { Id := if resp.StatusCode = 404 then "" else d.Id,
            revision := d.revision, description := d.description,
            display_name := d.display_name, tag := d.tag, block_id := d.block_id,
            size := d.size, cidr := d.cidr, allocation_ranges := d.allocation_ranges } := by
  by_cases hs : resp.StatusCode = 404 <;>
    simp [resourceNsxtIpBlockSubnetDelete, hid, hdelete, hs, StatusNotFound]

theorem subnetDelete_no_error_witness :
    resourceNsxtIpBlockSubnetDelete (subnetService 404 none) storedSubnet =
      .ok { Id := "", revision := 1, description := "d", display_name := "subnet",
            tag := [], block_id := "b1", size := 16, cidr := "10.0.0.0/28",
            allocation_ranges := [("10.0.0.1", "10.0.0.14")] } :=
  subnetDelete_no_error (subnetService 404 none) storedSubnet ⟨404⟩ (by decide) rfl

/-! ## Soundness of the resolution -/

theorem pickMatch_ok (category objName : String) (perfect start : List SecurityPolicy)
    (obj : SecurityPolicy) (h : pickMatch category objName perfect start = .ok obj) :
    perfect = [obj] ∨ (perfect = [] ∧ start = [obj]) := by
  rcases perfect with _ | ⟨p, _ | ⟨p2, more⟩⟩
  · rcases start with _ | ⟨s, _ | ⟨s2, more⟩⟩
    · simp [pickMatch] at h
    · simp [pickMatch] at h
      exact Or.inr ⟨rfl, by rw [h]⟩
    · simp [pickMatch] at h
  · simp [pickMatch] at h
    exact Or.inl (by rw [h])
  · simp [pickMatch] at h

theorem setPolicy_ok (d d2 : ResourceData) (obj : SecurityPolicy)
    (h : setPolicy d obj = .ok d2) : ∃ id, obj.Id = some id ∧ d2 = written d id obj := by
  unfold setPolicy at h
  split at h
  · cases h
  · rename_i id hid
    exact ⟨id, hid, by rw [← Outcome.ok.inj h]; rfl⟩

theorem HasPrefix_empty (s : String) : HasPrefix s "" = true := by
  simp [HasPrefix]

theorem nameEquals_startsWith (objName : String) (o : SecurityPolicy)
    (h : nameEquals objName o = true) : nameStartsWith objName o = true := by
  simp only [nameEquals, decide_eq_true_eq] at h
  simp [nameStartsWith, h, HasPrefix]

/-- The filtered candidates with the queried name are those of the matches by
name start that have the queried name. -/
theorem exactMatches_eq_filter (category : String) (isDefault : Bool) (objName : String)
    (objList : List SecurityPolicy) :
    exactMatches category isDefault objName objList =
      (startMatches category isDefault objName objList).filter (nameEquals objName) := by
  unfold exactMatches startMatches
  rw [List.filter_filter]
  apply List.filter_congr
  intro o _
  by_cases hn : nameEquals objName o = true
  · simp [hn, nameEquals_startsWith objName o hn]
  · simp [hn]

theorem startsWith_written (objName : String) (o : SecurityPolicy)
    (h : nameStartsWith objName o = true) : HasPrefix (o.DisplayName.getD "") objName = true := by
  unfold nameStartsWith at h
  rcases Bool.or_eq_true _ _ |>.mp h with h1 | h2
  · simp only [decide_eq_true_eq] at h1
    subst h1
    exact HasPrefix_empty _
  · cases hd : o.DisplayName with
    | none => rw [hd] at h2; cases h2
    | some name => rw [hd] at h2; exact h2

/-- C12: local manager, empty id.  Whenever the read succeeds, the enumeration
returned a list without error, and the state written is that of an element of
this list: its category is the queried one when a category is queried, its
default flag is the queried one, and its display name starts with the queried
name; it is the only filtered candidate with the queried name, or there is none
and it is the only filtered candidate that counts as a match by name start. -/
theorem read_sound (m : Connector) (d : ResourceData) (fuel : Nat)
    (calls : List ApiCall) (d2 : ResourceData)
    (hlocal : m.isPolicyGlobalManager = false) (hid : d.id = "")
    (hok : dataSourceNsxtPolicySecurityPolicyRead m d fuel = some ⟨calls, .ok d2⟩) :
    ∃ objList obj id,
      listSecurityPolicies m d.domain fuel = some ⟨objList, none, calls⟩ ∧
      obj ∈ objList ∧ obj.Id = some id ∧ d2 = written d id obj ∧
      (d.category ≠ "" → obj.Category = some d.category) ∧
      obj.IsDefault = some d.is_default ∧
      nameStartsWith d.display_name obj = true ∧
      HasPrefix d2.display_name d.display_name = true ∧
      (exactMatches d.category d.is_default d.display_name objList = [obj] ∨
        (exactMatches d.category d.is_default d.display_name objList = [] ∧
          startMatches d.category d.is_default d.display_name objList = [obj])) := by
  have hcrit : ¬ (d.display_name = "" ∧ d.category = "") := by
    intro hboth
    simp [dataSourceNsxtPolicySecurityPolicyRead, hlocal, hid, hboth] at hok
  cases hl : listSecurityPolicies m d.domain fuel with
  | none => simp [dataSourceNsxtPolicySecurityPolicyRead, hlocal, hid, hcrit, hl] at hok
  | some run =>
    rcases run with ⟨objList, err, lcalls⟩
    cases err with
    | some e => simp [dataSourceNsxtPolicySecurityPolicyRead, hlocal, hid, hcrit, hl] at hok
    | none =>
      rw [read_of_listing m d fuel objList lcalls hlocal hid hcrit hl] at hok
      simp only [Option.some.injEq, Run.mk.injEq] at hok
      obtain ⟨hcalls, hres⟩ := hok
      subst hcalls
      unfold resolveByName at hres
      cases hloop : matchLoop d.category d.is_default d.display_name objList [] [] with
      | error e => rw [hloop] at hres; cases hres
      | nilDeref => rw [hloop] at hres; cases hres
      | ok buckets =>
        obtain ⟨perfect, start⟩ := buckets
        rw [hloop] at hres
        dsimp only at hres
        have hb := matchLoop_ok _ _ _ _ _ _ _ hloop
        simp only [List.nil_append, Prod.mk.injEq] at hb
        obtain ⟨hperf, hstart⟩ := hb
        cases hpick : pickMatch d.category d.display_name perfect start with
        | error e => rw [hpick] at hres; cases hres
        | nilDeref => rw [hpick] at hres; cases hres
        | ok obj =>
          rw [hpick] at hres
          dsimp only at hres
          obtain ⟨id, hoid, hd2⟩ := setPolicy_ok _ _ _ hres
          have hex := exactMatches_eq_filter d.category d.is_default d.display_name objList
          have hfacts : ∀ o, o ∈ startMatches d.category d.is_default d.display_name objList →
              o ∈ objList ∧ (d.category ≠ "" → o.Category = some d.category) ∧
                o.IsDefault = some d.is_default ∧ nameStartsWith d.display_name o = true := by
            intro o ho
            simp only [startMatches, List.mem_filter, Bool.and_eq_true, passesFilters,
              Bool.or_eq_true, decide_eq_true_eq] at ho
            refine ⟨ho.1, ?_, ho.2.1.2, ho.2.2⟩
            intro hc
            rcases ho.2.1.1 with h1 | h1
            · exact absurd h1 hc
            · exact h1
          have hmem : obj ∈ startMatches d.category d.is_default d.display_name objList ∧
              (exactMatches d.category d.is_default d.display_name objList = [obj] ∨
                (exactMatches d.category d.is_default d.display_name objList = [] ∧
                  startMatches d.category d.is_default d.display_name objList = [obj])) := by
            rcases pickMatch_ok _ _ _ _ _ hpick with hone | ⟨hnil, hone⟩
            · have hn : d.display_name ≠ "" := by
                intro hn
                rw [hperf] at hone
                simp [hn] at hone
              have hpe : perfect = exactMatches d.category d.is_default d.display_name objList := by
                rw [hperf]
                simp [exactMatches, hn]
              have hin : obj ∈ exactMatches d.category d.is_default d.display_name objList := by
                rw [← hpe, hone]; exact List.mem_singleton_self obj
              exact ⟨exactMatches_sub_startMatches _ _ _ _ _ hin, Or.inl (by rw [← hpe, hone])⟩
            · have hs : startMatches d.category d.is_default d.display_name objList = [obj] := by
                rw [← hstart, hone]
              refine ⟨by rw [hs]; exact List.mem_singleton_self obj, ?_⟩
              rw [hex, hs]
              by_cases hne : nameEquals d.display_name obj = true
              · exact Or.inl (by simp [hne])
              · exact Or.inr ⟨by simp [hne], rfl⟩
          obtain ⟨hin, hcat, hdef, hname⟩ := hfacts obj hmem.1
          refine ⟨objList, obj, id, rfl, hin, hoid, hd2, hcat, hdef, hname, ?_, hmem.2⟩
          rw [hd2]
          exact startsWith_written _ _ hname

theorem read_sound_witness :
    ∃ objList obj id,
      listSecurityPolicies (onePage webPair) "default" 1 =
        some ⟨objList, none, [ApiCall.List "default" none]⟩ ∧
      obj ∈ objList ∧ obj.Id = some id ∧
      ({ Id := "p2", id := "p2", display_name := "web-01", description := "", path := "",
         domain := "default", is_default := false, category := "App" } : ResourceData) =
        written (queryByName "web-0" "App" false) id obj ∧
      (("App" : String) ≠ "" → obj.Category = some "App") ∧
      obj.IsDefault = some false ∧
      nameStartsWith "web-0" obj = true ∧
      HasPrefix "web-01" "web-0" = true ∧
      (exactMatches "App" false "web-0" objList = [obj] ∨
        (exactMatches "App" false "web-0" objList = [] ∧
          startMatches "App" false "web-0" objList = [obj])) :=
  read_sound (onePage webPair) (queryByName "web-0" "App" false) 1
    [ApiCall.List "default" none]
    { Id := "p2", id := "p2", display_name := "web-01", description := "", path := "",
      domain := "default", is_default := false, category := "App" }
    rfl rfl (by decide)
end Nsxt
